import Mathlib

/-!
Shallow embedding of the Order & Inventory Allocation Engine of the
WakaAgenticAI backend.

Sources embedded:
* `app/models/products.py`, `app/models/inventory.py`, `app/models/orders.py`
  — the persisted rows (`Product`, `Warehouse`, `Inventory`, `Order`,
  `OrderItem`).  Monetary columns are `Numeric(12, 2)`; the service layer
  converts every value it touches to `Decimal`, so all money arithmetic is
  exact two-decimal fixed point.  We represent monetary amounts as `Int`
  scaled by 100 (kobo), which models two-decimal fixed-point `Decimal`
  arithmetic exactly: a line's quantity is an `int` in the source, so
  `line_total = price × qty` and the running total stay in the same scale.
  Stock counters (`on_hand`, `reserved`) are also two-decimal `Decimal`
  columns, but the engine only adds, subtracts and compares them with the
  integral line quantities, operations which factor through the scaling,
  so they are carried as plain `Int`.  Timestamps, surrogate ids of
  `Inventory`/`OrderItem` rows, and columns the engine never reads
  (`sku`, `unit`, `tax_rate`, `reorder_point` is kept since it is a column
  of the row) are irrelevant to the claims; surrogate ids and timestamps
  are omitted.
* `app/services/orders_service.py` — `create_order`, `fulfill_order`.
* `app/agents/orders_agent.py` — `OrdersAgent._cancel_order`.
* `app/api/v1/endpoints/orders.py` — `update_order` (PATCH), together with
  the pydantic validation of `app/schemas/orders.py` (`OrderUpdate`,
  `OrderCreate`, `OrderItemIn`).

Transactional semantics: the SQLAlchemy session is created per request
(`get_db` in `app/db/session.py`, or `SessionLocal()` inside the agent)
with `autocommit=False`; each operation calls `db.commit()` exactly once,
at its very end, and every error path raises (or returns) before that
commit, after which the session is closed without committing, rolling the
transaction back.  Accordingly each operation below is a function from the
committed database state to a result: it returns a new state only on the
path that reaches `db.commit()`, and every other path leaves the committed
state untouched.  `db.flush()` calls publish pending rows inside the open
transaction only, which the explicit state threading models directly.
-/

namespace OrderEngine

/-- Product row (`app/models/products.py`).  `price_ngn` is `Numeric(12,2)`;
here in kobo (hundredths). -/
structure Product where
  id : Nat
  sku : String
  name : String
  price_ngn : Int
deriving DecidableEq

/-- Warehouse row (`app/models/inventory.py`). -/
structure Warehouse where
  id : Nat
  name : String
deriving DecidableEq

/-- Inventory row (`app/models/inventory.py`): per (product, warehouse)
stock counters, `Numeric(12,2)` columns in kobo-scaled integers. -/
structure Inventory where
  product_id : Nat
  warehouse_id : Nat
  on_hand : Int
  reserved : Int
  reorder_point : Int
deriving DecidableEq

/-- Order header row (`app/models/orders.py`). -/
structure Order where
  id : Nat
  customer_id : Nat
  status : String
  currency : String
  total : Int
  channel : String
deriving DecidableEq

/-- Order line row (`app/models/orders.py`).  The quantity column is named
`qty`; the model has no attribute named `quantity`. -/
structure OrderItem where
  order_id : Nat
  product_id : Nat
  qty : Int
  price : Int
  line_total : Int
deriving DecidableEq

/-- Request line (`app/schemas/orders.py`, `OrderItemIn`): `product_id ≥ 1`,
`qty ≥ 1`, and an optional caller-supplied unit price. -/
structure OrderItemIn where
  product_id : Nat
  qty : Int
  price : Option Int
deriving DecidableEq

/-- Creation request (`app/schemas/orders.py`, `OrderCreate`).  The `items`
list carries no non-emptiness constraint. -/
structure OrderCreate where
  customer_id : Nat
  items : List OrderItemIn
  channel : String
deriving DecidableEq

/-- Response shape (`app/schemas/orders.py`, `OrderOut`). -/
structure OrderOut where
  id : Nat
  status : String
  total : Int
  currency : String
deriving DecidableEq

/-- Committed database state: the four tables of the engine plus the
auto-increment counters for the two primary keys the engine assigns. -/
structure DBState where
  products : List Product
  warehouses : List Warehouse
  inventory : List Inventory
  orders : List Order
  order_items : List OrderItem
  next_order_id : Nat
  next_warehouse_id : Nat
deriving DecidableEq

/-- Error taxonomy of the engine, one constructor per `raise` site (the
agent's cancel path returns failure dictionaries instead of raising, see
`CancelResult`). -/
inductive OrdersError where
  /-- Raised as `ValueError(f"Product \x7bit.product_id\x7d not found")`. -/
  | productNotFound (product_id : Nat)
  /-- Raised as `InsufficientStock(f"Insufficient stock for product \x7bit.product_id\x7d")`. -/
  | insufficientStock (product_id : Nat)
  /-- Raised as `ValueError("Order not found")`. -/
  | orderNotFound
  /-- Raised as `ValueError("No warehouse configured")`. -/
  | noWarehouse
  /-- Raised as `ValueError(f"Inventory row missing for product \x7bit.product_id\x7d")`. -/
  | inventoryRowMissing (product_id : Nat)
  /-- Raised as `ValueError(f"Reserved less than fulfill qty for product \x7bit.product_id\x7d")`. -/
  | reservedBelowQty (product_id : Nat)
  /-- Raised as `ValueError(f"On hand less than fulfill qty for product \x7bit.product_id\x7d")`. -/
  | onHandBelowQty (product_id : Nat)
deriving DecidableEq

/-- Catalog price lookup: `select(Product).where(Product.id.in_(...))`
materialised into `price_map`; `id` is the primary key, so the first match
is the row. -/
def priceOf? (ps : List Product) (pid : Nat) : Option Int :=
  (ps.find? (fun p => p.id == pid)).map (fun p => p.price_ngn)

/-- Default warehouse: `select(Warehouse).order_by(Warehouse.id.asc())`
then `.first()` — the warehouse with the least id. -/
def firstWarehouse : List Warehouse → Option Warehouse
  | [] => none
  | w :: ws =>
    match firstWarehouse ws with
    | none => some w
    | some b => if w.id ≤ b.id then some w else some b

/-- Inventory row lookup by (product, warehouse):
`select(Inventory).where(product_id == pid, warehouse_id == wid).first()`. -/
def findInv? (invs : List Inventory) (pid wid : Nat) : Option Inventory :=
  invs.find? (fun i => i.product_id == pid && i.warehouse_id == wid)

/-- In-place mutation of the first (product, warehouse) matching row, the
list analogue of assigning to the ORM object returned by `findInv?`. -/
def updateInv (invs : List Inventory) (pid wid : Nat) (f : Inventory → Inventory) :
    List Inventory :=
  match invs with
  | [] => []
  | i :: rest =>
    if i.product_id == pid && i.warehouse_id == wid then f i :: rest
    else i :: updateInv rest pid wid f

/-- Order lookup: `db.query(Order).filter(Order.id == order_id).first()`. -/
def findOrder? (os : List Order) (oid : Nat) : Option Order :=
  os.find? (fun o => o.id == oid)

/-- In-place status assignment on the first matching order row
(`order.status = ...`). -/
def setStatus (os : List Order) (oid : Nat) (st : String) : List Order :=
  match os with
  | [] => []
  | o :: rest =>
    if o.id == oid then { o with status := st } :: rest
    else o :: setStatus rest oid st

/-- Lines of one order:
`db.query(OrderItem).filter(OrderItem.order_id == order_id).all()`. -/
def itemsOf (s : DBState) (oid : Nat) : List OrderItem :=
  s.order_items.filter (fun it => it.order_id == oid)

/-- Reservation loop of `create_order` (`orders_service.py` lines 46–81):
for each request line in order, resolve the catalog price (raising
`ValueError` for an unknown product), accumulate `line_total = price * qty`
into the running total, fetch or lazily create the zero-valued inventory
row, check `qty > on_hand - reserved` (raising `InsufficientStock`),
increase `reserved` by `qty`, and stage the `OrderItem` row.  The
caller-supplied `it.price` is never read. -/
def reserveLines (prods : List Product) (whId orderId : Nat) :
    List OrderItemIn → List Inventory → List OrderItem → Int →
    Except OrdersError (List Inventory × List OrderItem × Int)
  | [], invs, acc, total => .ok (invs, acc, total)
  | it :: rest, invs, acc, total =>
    match priceOf? prods it.product_id with
    | none => .error (.productNotFound it.product_id)
    | some price =>
      match findInv? invs it.product_id whId with
      | some inv =>
        if inv.on_hand - inv.reserved < it.qty then
          .error (.insufficientStock it.product_id)
        else
          reserveLines prods whId orderId rest
            (updateInv invs it.product_id whId
              (fun i => { i with reserved := i.reserved + it.qty }))
            (acc ++ [⟨orderId, it.product_id, it.qty, price, price * it.qty⟩])
            (total + price * it.qty)
      | none =>
        -- lazily created zero row: available = 0 - 0 = 0
        let inv : Inventory := ⟨it.product_id, whId, 0, 0, 0⟩
        if inv.on_hand - inv.reserved < it.qty then
          .error (.insufficientStock it.product_id)
        else
          reserveLines prods whId orderId rest
            (updateInv (invs ++ [inv]) it.product_id whId
              (fun i => { i with reserved := i.reserved + it.qty }))
            (acc ++ [⟨orderId, it.product_id, it.qty, price, price * it.qty⟩])
            (total + price * it.qty)

/-- Result of `create_order`: on success the order id, the `OrderOut`
payload, and the committed post-state. -/
inductive CreateResult where
  | ok (order_id : Nat) (out : OrderOut) (s2 : DBState)
  | error (e : OrdersError)
deriving DecidableEq

/-- Body of `create_order` once the target warehouse is fixed: run the
reservation loop over the session state `s1` and, only if every line
succeeded, assign `order.total` and commit the new `Order` row, its
`OrderItem` rows and the inventory mutations in one transaction. -/
def create_order_body (s1 : DBState) (data : OrderCreate) (orderId whId : Nat) :
    CreateResult :=
  match reserveLines s1.products whId orderId data.items s1.inventory [] 0 with
  | .error e => .error e
  | .ok (invs2, newItems, total) =>
    let order : Order :=
      ⟨orderId, data.customer_id, "created", "NGN", total, data.channel⟩
    .ok orderId ⟨orderId, "created", total, "NGN"⟩
      { s1 with
        orders := s1.orders ++ [order],
        order_items := s1.order_items ++ newItems,
        inventory := invs2,
        next_order_id := orderId + 1 }

/-- Embedding of `create_order` (`orders_service.py` lines 25–88).  The new `Order` row
is flushed first (assigning `order.id = next_order_id`), the default
warehouse is selected (a "Main" warehouse is created and flushed if none
exists), then the reservation loop and the single final commit run; any
error leaves the committed state untouched (the session is closed without
commit, rolling back the flushed rows as well). -/
def create_order (s : DBState) (data : OrderCreate) : CreateResult :=
  match firstWarehouse s.warehouses with
  | some w => create_order_body s data s.next_order_id w.id
  | none =>
    create_order_body
      { s with warehouses := s.warehouses ++ [⟨s.next_warehouse_id, "Main"⟩],
               next_warehouse_id := s.next_warehouse_id + 1 }
      data s.next_order_id s.next_warehouse_id

/-- Committed state visible after the request's session is closed: the new
state on the committing path, the unchanged input state on every error
path (rollback on `db.close()`). -/
def createVisibleState (s : DBState) : CreateResult → DBState
  | .ok _ _ s2 => s2
  | .error _ => s

/-- Consumption loop of `fulfill_order` (lines 100–120): per line, load the
inventory row (error if missing), check `reserved < qty` then
`on_hand < qty`, and decrement both counters by `qty`. -/
def consumeLines (whId : Nat) :
    List OrderItem → List Inventory → Except OrdersError (List Inventory)
  | [], invs => .ok invs
  | it :: rest, invs =>
    match findInv? invs it.product_id whId with
    | none => .error (.inventoryRowMissing it.product_id)
    | some inv =>
      if inv.reserved < it.qty then .error (.reservedBelowQty it.product_id)
      else if inv.on_hand < it.qty then .error (.onHandBelowQty it.product_id)
      else
        consumeLines whId rest
          (updateInv invs it.product_id whId
            (fun i => { i with reserved := i.reserved - it.qty,
                               on_hand := i.on_hand - it.qty }))

/-- Result of `fulfill_order`: the refreshed order row and the committed
post-state, or the raised error. -/
inductive FulfillResult where
  | ok (o : Order) (s2 : DBState)
  | error (e : OrdersError)
deriving DecidableEq

/-- Embedding of `fulfill_order` (`orders_service.py` lines 91–124).  It loads the
order, the default warehouse, and the order's lines, runs the consumption
loop, then unconditionally sets `order.status = "fulfilled"` and commits.
The function performs no check of the order's current status. -/
def fulfill_order (s : DBState) (order_id : Nat) : FulfillResult :=
  match findOrder? s.orders order_id with
  | none => .error .orderNotFound
  | some o =>
    match firstWarehouse s.warehouses with
    | none => .error .noWarehouse
    | some wh =>
      match consumeLines wh.id (itemsOf s order_id) s.inventory with
      | .error e => .error e
      | .ok invs2 =>
        .ok { o with status := "fulfilled" }
          { s with orders := setStatus s.orders order_id "fulfilled",
                   inventory := invs2 }

/-- Committed state visible after `fulfill_order`'s session closes. -/
def fulfillVisibleState (s : DBState) : FulfillResult → DBState
  | .ok _ s2 => s2
  | .error _ => s

/-- Outcome of `OrdersAgent._cancel_order` as surfaced by
`OrdersAgent.handle`: success and failure dictionaries, plus the
`AttributeError` escaping the method and caught by `handle`. -/
inductive CancelResult where
  | success (order_id : Nat)
  | orderNotFound
  /-- Failure message `"Cannot cancel order with status: ..."` naming the current status. -/
  | cannotCancel (current_status : String)
  /-- Crash `AttributeError`: the release loop reads `item.quantity`, but the
  `OrderItem` column is `qty`; the attribute access raises on the first
  line whose product has an inventory row. -/
  | attributeError
deriving DecidableEq

/-- Release-loop scan of `_cancel_order` (lines 224–230): for each line,
`db.query(Inventory).filter(Inventory.product_id == item.product_id).first()`
(no warehouse filter); when a row is found, the assignment
`inventory.reserved = max(0, inventory.reserved - item.quantity)` evaluates
`item.quantity` and raises `AttributeError` (the column is `qty`); when no
row is found the line is skipped.  Returns `true` iff the loop raises. -/
def cancelScan (invs : List Inventory) : List OrderItem → Bool
  | [] => false
  | it :: rest =>
    match invs.find? (fun i => i.product_id == it.product_id) with
    | some _ => true
    | none => cancelScan invs rest

/-- Embedding of `OrdersAgent._cancel_order` (`orders_agent.py` lines 193–243).  The
guard rejects only the statuses `cancelled`, `shipped`, `delivered`.
Otherwise the status is set to `cancelled` in the session and the release
loop runs; if it raises (any line whose product has an inventory row), the
session is closed without commit and the committed state is unchanged;
only when the loop completes does `db.commit()` persist the new status. -/
def cancel_order (s : DBState) (order_id : Nat) : CancelResult × DBState :=
  match findOrder? s.orders order_id with
  | none => (.orderNotFound, s)
  | some o =>
    if o.status == "cancelled" || o.status == "shipped" || o.status == "delivered" then
      (.cannotCancel o.status, s)
    else if cancelScan s.inventory (itemsOf s order_id) then
      (.attributeError, s)
    else
      (.success order_id, { s with orders := setStatus s.orders order_id "cancelled" })

/-- Pydantic validation of `OrderUpdate.status`
(`pattern="^(created|paid|fulfilled|cancelled)$"`). -/
def orderUpdateStatusValid (st : String) : Bool :=
  st == "created" || st == "paid" || st == "fulfilled" || st == "cancelled"

/-- Outcome of the PATCH `/orders/\x7border_id\x7d` endpoint. -/
inductive UpdateResult where
  | ok (o : Order)
  | validationError
  | notFound
deriving DecidableEq

/-- Embedding of `update_order` (`endpoints/orders.py` lines 64–74) behind the
`OrderUpdate` schema validation: load the order (404 if absent), assign
`o.status = body.status` with no check of the current status, and commit. -/
def update_order (s : DBState) (order_id : Nat) (new_status : String) :
    UpdateResult × DBState :=
  if orderUpdateStatusValid new_status then
    match findOrder? s.orders order_id with
    | none => (.notFound, s)
    | some o =>
      (.ok { o with status := new_status },
        { s with orders := setStatus s.orders order_id new_status })
  else (.validationError, s)

/-- Sum of the `line_total` column over a list of order lines. -/
def sumLineTotals (its : List OrderItem) : Int :=
  (its.map (fun it => it.line_total)).sum

/-- Freshness of the auto-increment order id: no existing order row or
order-line row already carries `next_order_id` (guaranteed by the
database's primary-key sequence). -/
def freshOrderId (s : DBState) : Bool :=
  s.orders.all (fun o => !(o.id == s.next_order_id)) &&
    s.order_items.all (fun it => !(it.order_id == s.next_order_id))

/-- Erase the caller-supplied `price` field of a request line. -/
def stripPrice (it : OrderItemIn) : OrderItemIn :=
  { it with price := none }

/-! Concrete database states used by counterexamples and witnesses.
Prices are in kobo: `100000 = ₦1000.00`. -/

/-- Order 1 already `fulfilled` for its single line (product 1, qty 2);
inventory carries `on_hand = 5` and `reserved = 2` (for example because a
second order holds a reservation of 2 on the same product). -/
def c1_fulfilled_s : DBState :=
  { products := [⟨1, "P1", "Prod1", 100000⟩],
    warehouses := [⟨1, "Main"⟩],
    inventory := [⟨1, 1, 5, 2, 0⟩],
    orders := [⟨1, 1, "fulfilled", "NGN", 200000, "chatbot"⟩],
    order_items := [⟨1, 1, 2, 100000, 200000⟩],
    next_order_id := 2, next_warehouse_id := 2 }

/-- Same state with order 1 in status `cancelled` instead. -/
def c1_cancelled_s : DBState :=
  { c1_fulfilled_s with orders := [⟨1, 1, "cancelled", "NGN", 200000, "chatbot"⟩] }

/-- Two terminal orders: order 1 `fulfilled`, order 2 `cancelled`. -/
def c3_s : DBState :=
  { products := [], warehouses := [⟨1, "Main"⟩], inventory := [],
    orders := [⟨1, 1, "fulfilled", "NGN", 0, "chatbot"⟩,
               ⟨2, 1, "cancelled", "NGN", 0, "chatbot"⟩],
    order_items := [],
    next_order_id := 3, next_warehouse_id := 2 }

/-- State with one warehouse and no products, used to fail a creation. -/
def c2w_s : DBState :=
  { products := [], warehouses := [⟨1, "Main"⟩], inventory := [],
    orders := [], order_items := [],
    next_order_id := 1, next_warehouse_id := 2 }

/-- One product, freshly stocked inventory, plus one pre-existing order so
the freshness of the next order id is not vacuous. -/
def c4w_s : DBState :=
  { products := [⟨1, "P1", "Prod1", 100000⟩],
    warehouses := [⟨1, "Main"⟩],
    inventory := [⟨1, 1, 10, 1, 0⟩],
    orders := [⟨1, 1, "created", "NGN", 100000, "web"⟩],
    order_items := [⟨1, 1, 1, 100000, 100000⟩],
    next_order_id := 2, next_warehouse_id := 2 }

/-- Inventory with `on_hand = 10`, `reserved = 4`: `available = 6`. -/
def c5w_s : DBState :=
  { products := [⟨1, "P1", "Prod1", 100000⟩],
    warehouses := [⟨1, "Main"⟩],
    inventory := [⟨1, 1, 10, 4, 0⟩],
    orders := [], order_items := [],
    next_order_id := 1, next_warehouse_id := 2 }

/-- Order 1 in status `created` with two lines (products 1 and 2), both
fully covered by their inventory rows. -/
def c6w_s : DBState :=
  { products := [⟨1, "P1", "Prod1", 100000⟩, ⟨2, "P2", "Prod2", 50000⟩],
    warehouses := [⟨1, "Main"⟩],
    inventory := [⟨1, 1, 5, 2, 0⟩, ⟨2, 1, 7, 3, 0⟩],
    orders := [⟨1, 1, "created", "NGN", 350000, "chatbot"⟩],
    order_items := [⟨1, 1, 2, 100000, 200000⟩, ⟨1, 2, 3, 50000, 150000⟩],
    next_order_id := 2, next_warehouse_id := 2 }

/-- Order 1 in status `created` whose line (qty 2) exceeds the reserved
quantity of its inventory row (`reserved = 1`). -/
def c6w_bad_s : DBState :=
  { c6w_s with
    inventory := [⟨1, 1, 5, 1, 0⟩, ⟨2, 1, 7, 3, 0⟩],
    orders := [⟨1, 1, "paid", "NGN", 350000, "chatbot"⟩] }

/-- Order 1 is `fulfilled` with zero lines; order 2 is `fulfilled` with
one line (product 5) whose product has an inventory row. -/
def c7_s : DBState :=
  { products := [⟨5, "P5", "Prod5", 100000⟩],
    warehouses := [⟨1, "Main"⟩],
    inventory := [⟨5, 1, 6, 0, 0⟩],
    orders := [⟨1, 1, "fulfilled", "NGN", 0, "chatbot"⟩,
               ⟨2, 1, "fulfilled", "NGN", 100000, "chatbot"⟩],
    order_items := [⟨2, 5, 1, 100000, 100000⟩],
    next_order_id := 3, next_warehouse_id := 2 }

/-- Pristine state before the create-then-cancel round trip: product 1 at
₦1000.00, `on_hand = 10`, `reserved = 0`. -/
def c8_s0 : DBState :=
  { products := [⟨1, "P1", "Prod1", 100000⟩],
    warehouses := [⟨1, "Main"⟩],
    inventory := [⟨1, 1, 10, 0, 0⟩],
    orders := [], order_items := [],
    next_order_id := 1, next_warehouse_id := 2 }

/-- State after creating the order for 4 units of product 1. -/
def c8_s1 : DBState :=
  { c8_s0 with
    inventory := [⟨1, 1, 10, 4, 0⟩],
    orders := [⟨1, 1, "created", "NGN", 400000, "chatbot"⟩],
    order_items := [⟨1, 1, 4, 100000, 400000⟩],
    next_order_id := 2 }

/-- Completely empty database. -/
def c9_s0 : DBState :=
  { products := [], warehouses := [], inventory := [],
    orders := [], order_items := [],
    next_order_id := 1, next_warehouse_id := 1 }

/-- State after creating, on `c4w_s`, an order for customer 2 with one
line of 3 units of product 1. -/
def c4w_s2 : DBState :=
  { c4w_s with
    inventory := [⟨1, 1, 10, 4, 0⟩],
    orders := [⟨1, 1, "created", "NGN", 100000, "web"⟩,
               ⟨2, 2, "created", "NGN", 300000, "chatbot"⟩],
    order_items := [⟨1, 1, 1, 100000, 100000⟩, ⟨2, 1, 3, 100000, 300000⟩],
    next_order_id := 3 }

/-- State after creating, on `c5w_s`, an order for 2 units of product 1
(with a caller-supplied price in the request, which is ignored). -/
def c10w_s2 : DBState :=
  { c5w_s with
    inventory := [⟨1, 1, 10, 6, 0⟩],
    orders := [⟨1, 1, "created", "NGN", 200000, "chatbot"⟩],
    order_items := [⟨1, 1, 2, 100000, 200000⟩],
    next_order_id := 2 }

/-! Theorems.  First a layer of lemmas about the list-level primitives and
the two per-line loops; the claims follow. -/

theorem findInv?_nil {pid wid : Nat} : findInv? [] pid wid = none := rfl

theorem findInv?_updateInv_self (f : Inventory → Inventory)
    (hf1 : ∀ i, (f i).product_id = i.product_id)
    (hf2 : ∀ i, (f i).warehouse_id = i.warehouse_id)
    {pid wid : Nat} :
    ∀ {invs : List Inventory} {inv : Inventory},
      findInv? invs pid wid = some inv →
      findInv? (updateInv invs pid wid f) pid wid = some (f inv) := by
  intro invs
  induction invs with
  | nil => intro inv h; simp [findInv?] at h
  | cons i rest ih =>
    intro inv h
    cases hm : (i.product_id == pid && i.warehouse_id == wid) with
    | true =>
      simp only [findInv?, List.find?_cons, hm] at h
      injection h with h; subst h
      simp only [updateInv, hm, if_true, findInv?, List.find?_cons, hf1, hf2]
    | false =>
      simp only [findInv?, List.find?_cons, hm] at h
      simp only [updateInv, hm, Bool.false_eq_true, if_false, findInv?, List.find?_cons]
      exact ih h

theorem findInv?_updateInv_ne (f : Inventory → Inventory)
    (hf1 : ∀ i, (f i).product_id = i.product_id)
    {pid wid pid' wid' : Nat} (hne : pid' ≠ pid) :
    ∀ invs : List Inventory,
      findInv? (updateInv invs pid wid f) pid' wid' = findInv? invs pid' wid' := by
  intro invs
  induction invs with
  | nil => rfl
  | cons i rest ih =>
    cases hm : (i.product_id == pid && i.warehouse_id == wid) with
    | true =>
      have hip : i.product_id = pid := eq_of_beq ((Bool.and_eq_true _ _).mp hm).1
      have hfneg : ((f i).product_id == pid') = false := by
        rw [hf1, hip]
        exact beq_eq_false_iff_ne.mpr (fun hc => hne hc.symm)
      have hineg : (i.product_id == pid') = false := by
        rw [hip]
        exact beq_eq_false_iff_ne.mpr (fun hc => hne hc.symm)
      simp only [updateInv, hm, if_true, findInv?, List.find?_cons, hfneg, hineg,
        Bool.false_and]
    | false =>
      simp only [updateInv, hm, Bool.false_eq_true, if_false, findInv?, List.find?_cons]
      cases hq : (i.product_id == pid' && i.warehouse_id == wid') with
      | true => rfl
      | false => exact ih

theorem findOrder?_setStatus_self {oid : Nat} {st : String} :
    ∀ {os : List Order} {o : Order},
      findOrder? os oid = some o →
      findOrder? (setStatus os oid st) oid = some { o with status := st } := by
  intro os
  induction os with
  | nil => intro o h; simp [findOrder?] at h
  | cons o1 rest ih =>
    intro o h
    cases hm : (o1.id == oid) with
    | true =>
      simp only [findOrder?, List.find?_cons, hm] at h
      injection h with h; subst h
      simp only [setStatus, hm, if_true, findOrder?, List.find?_cons]
    | false =>
      simp only [findOrder?, List.find?_cons, hm] at h
      simp only [setStatus, hm, Bool.false_eq_true, if_false, findOrder?, List.find?_cons]
      exact ih h

theorem setStatus_map_id_total {oid : Nat} {st : String} :
    ∀ os : List Order,
      (setStatus os oid st).map (fun o => (o.id, o.total)) =
        os.map (fun o => (o.id, o.total)) := by
  intro os
  induction os with
  | nil => rfl
  | cons o rest ih =>
    by_cases hm : (o.id == oid) = true
    · rw [setStatus, if_pos hm]; simp
    · rw [setStatus, if_neg hm]; simpa using ih

theorem sumLineTotals_nil : sumLineTotals [] = 0 := rfl

theorem sumLineTotals_append (a b : List OrderItem) :
    sumLineTotals (a ++ b) = sumLineTotals a + sumLineTotals b := by
  simp [sumLineTotals]

theorem sumLineTotals_cons (x : OrderItem) (l : List OrderItem) :
    sumLineTotals (x :: l) = x.line_total + sumLineTotals l := by
  simp [sumLineTotals]

theorem reserveLines_error (prods : List Product) (whId orderId : Nat) :
    ∀ (items : List OrderItemIn) (invs : List Inventory) (acc : List OrderItem) (t : Int)
      {e : OrdersError},
      reserveLines prods whId orderId items invs acc t = .error e →
      ∃ pid, e = .productNotFound pid ∨ e = .insufficientStock pid := by
  intro items
  induction items with
  | nil => intro invs acc t e h; simp [reserveLines] at h
  | cons it rest ih =>
    intro invs acc t e h
    rw [reserveLines] at h
    cases hp : priceOf? prods it.product_id with
    | none =>
      simp only [hp] at h
      injection h with h
      exact ⟨it.product_id, Or.inl h.symm⟩
    | some price =>
      simp only [hp] at h
      cases hi : findInv? invs it.product_id whId with
      | some inv =>
        simp only [hi] at h
        split at h
        · injection h with h
          exact ⟨it.product_id, Or.inr h.symm⟩
        · exact ih _ _ _ h
      | none =>
        simp only [hi] at h
        split at h
        · injection h with h
          exact ⟨it.product_id, Or.inr h.symm⟩
        · exact ih _ _ _ h

theorem reserveLines_ok (prods : List Product) (whId orderId : Nat) :
    ∀ (items : List OrderItemIn) (invs : List Inventory) (acc : List OrderItem) (t : Int)
      {invs2 : List Inventory} {acc2 : List OrderItem} {t2 : Int},
      reserveLines prods whId orderId items invs acc t = .ok (invs2, acc2, t2) →
      ∃ newItems, acc2 = acc ++ newItems ∧ t2 = t + sumLineTotals newItems ∧
        ∀ it ∈ newItems, it.order_id = orderId ∧ it.line_total = it.price * it.qty ∧
          priceOf? prods it.product_id = some it.price := by
  intro items
  induction items with
  | nil =>
    intro invs acc t invs2 acc2 t2 h
    simp only [reserveLines, Except.ok.injEq, Prod.mk.injEq] at h
    obtain ⟨-, rfl, rfl⟩ := h
    exact ⟨[], by simp, by simp [sumLineTotals_nil], by simp⟩
  | cons it rest ih =>
    intro invs acc t invs2 acc2 t2 h
    rw [reserveLines] at h
    cases hp : priceOf? prods it.product_id with
    | none => simp only [hp] at h; cases h
    | some price =>
      simp only [hp] at h
      have step :
          ∀ {invsx : List Inventory},
            reserveLines prods whId orderId rest invsx
              (acc ++ [⟨orderId, it.product_id, it.qty, price, price * it.qty⟩])
              (t + price * it.qty) = .ok (invs2, acc2, t2) →
            ∃ newItems, acc2 = acc ++ newItems ∧ t2 = t + sumLineTotals newItems ∧
              ∀ x ∈ newItems, x.order_id = orderId ∧ x.line_total = x.price * x.qty ∧
                priceOf? prods x.product_id = some x.price := by
        intro invsx hrec
        obtain ⟨newR, hacc, ht, hprops⟩ := ih _ _ _ hrec
        refine ⟨⟨orderId, it.product_id, it.qty, price, price * it.qty⟩ :: newR, ?_, ?_, ?_⟩
        · rw [hacc, List.append_assoc]; rfl
        · rw [ht, sumLineTotals_cons, add_assoc]
        · intro x hx
          rcases List.mem_cons.mp hx with rfl | hx
          · exact ⟨rfl, rfl, hp⟩
          · exact hprops x hx
      cases hi : findInv? invs it.product_id whId with
      | some inv =>
        simp only [hi] at h
        split at h
        · cases h
        · exact step h
      | none =>
        simp only [hi] at h
        split at h
        · cases h
        · exact step h

theorem reserveLines_stripPrice (prods : List Product) (whId orderId : Nat) :
    ∀ (items : List OrderItemIn) (invs : List Inventory) (acc : List OrderItem) (t : Int),
      reserveLines prods whId orderId (items.map stripPrice) invs acc t =
        reserveLines prods whId orderId items invs acc t := by
  intro items
  induction items with
  | nil => intro invs acc t; rfl
  | cons it rest ih =>
    intro invs acc t
    simp only [List.map_cons]
    rw [reserveLines, reserveLines]
    simp only [stripPrice]
    cases hp : priceOf? prods it.product_id with
    | none => simp only [hp]
    | some price =>
      simp only [hp]
      cases hi : findInv? invs it.product_id whId with
      | some inv =>
        simp only [hi]
        split
        · rfl
        · exact ih _ _ _
      | none =>
        simp only [hi]
        split
        · rfl
        · exact ih _ _ _

theorem create_order_body_error {s1 : DBState} {data : OrderCreate} {orderId whId : Nat}
    {e : OrdersError} (h : create_order_body s1 data orderId whId = .error e) :
    reserveLines s1.products whId orderId data.items s1.inventory [] 0 = .error e := by
  cases hr : reserveLines s1.products whId orderId data.items s1.inventory [] 0 with
  | error e2 =>
    simp only [create_order_body, hr] at h
    injection h with h; subst h; rfl
  | ok trip =>
    obtain ⟨invs2, newItems, total⟩ := trip
    simp only [create_order_body, hr] at h
    cases h

theorem create_order_body_ok {s1 : DBState} {data : OrderCreate} {orderId whId oid : Nat}
    {out : OrderOut} {s2 : DBState}
    (h : create_order_body s1 data orderId whId = .ok oid out s2) :
    ∃ newItems invs2,
      oid = orderId ∧
      out = ⟨orderId, "created", sumLineTotals newItems, "NGN"⟩ ∧
      s2 = { s1 with
        orders := s1.orders ++
          [⟨orderId, data.customer_id, "created", "NGN", sumLineTotals newItems,
            data.channel⟩],
        order_items := s1.order_items ++ newItems,
        inventory := invs2,
        next_order_id := orderId + 1 } ∧
      ∀ it ∈ newItems, it.order_id = orderId ∧ it.line_total = it.price * it.qty ∧
        priceOf? s1.products it.product_id = some it.price := by
  cases hr : reserveLines s1.products whId orderId data.items s1.inventory [] 0 with
  | error e2 =>
    simp only [create_order_body, hr] at h
    cases h
  | ok trip =>
    obtain ⟨invs2, newItems, total⟩ := trip
    obtain ⟨newR, hacc, ht, hprops⟩ := reserveLines_ok _ _ _ _ _ _ _ hr
    rw [List.nil_append] at hacc
    subst hacc
    rw [zero_add] at ht
    subst ht
    simp only [create_order_body, hr] at h
    injection h with h1 h2 h3
    exact ⟨newItems, invs2, h1.symm, h2.symm, h3.symm, hprops⟩

/-- C1: the claim states that fulfilling an order already in status
`fulfilled` or `cancelled` fails with `InvalidTransition` and leaves
inventory and status unchanged.  `fulfill_order` performs no status check
at all: on an order already `fulfilled` (and likewise `cancelled`) it
succeeds, re-decrements `reserved` and `on_hand` by each line's quantity,
and (for the cancelled case) overwrites the status with `fulfilled`.  Both
evaluations below exhibit this on the concrete states. -/
theorem c1_fulfill_terminal_order_succeeds_and_double_decrements :
    fulfill_order c1_fulfilled_s 1 =
      .ok ⟨1, 1, "fulfilled", "NGN", 200000, "chatbot"⟩
        { c1_fulfilled_s with inventory := [⟨1, 1, 3, 0, 0⟩] } ∧
    fulfill_order c1_cancelled_s 1 =
      .ok ⟨1, 1, "fulfilled", "NGN", 200000, "chatbot"⟩
        { c1_cancelled_s with
          inventory := [⟨1, 1, 3, 0, 0⟩],
          orders := [⟨1, 1, "fulfilled", "NGN", 200000, "chatbot"⟩] } := by
  constructor
  · decide
  · decide

/-- C3: the claim states that no operation ever moves an order out of
`fulfilled` or `cancelled`.  The PATCH update endpoint performs no
transition check: it moves order 1 from `fulfilled` back to `created` and
order 2 from `cancelled` to `paid`. -/
theorem c3_update_order_escapes_terminal_statuses :
    update_order c3_s 1 "created" =
      (.ok ⟨1, 1, "created", "NGN", 0, "chatbot"⟩,
       { c3_s with orders := [⟨1, 1, "created", "NGN", 0, "chatbot"⟩,
                              ⟨2, 1, "cancelled", "NGN", 0, "chatbot"⟩] }) ∧
    update_order c3_s 2 "paid" =
      (.ok ⟨2, 1, "paid", "NGN", 0, "chatbot"⟩,
       { c3_s with orders := [⟨1, 1, "fulfilled", "NGN", 0, "chatbot"⟩,
                              ⟨2, 1, "paid", "NGN", 0, "chatbot"⟩] }) := by
  constructor
  · decide
  · decide

/-- C7: the claim states that cancelling a `fulfilled` order fails with
`InvalidTransition` naming the status and changes nothing.  The guard of
`_cancel_order` rejects only `cancelled`, `shipped` and `delivered`: on
the zero-line fulfilled order 1 it succeeds and flips the status to
`cancelled`; on the fulfilled order 2 (which has a line) it aborts with
the `AttributeError` from `item.quantity`, not with a transition error
naming the status. -/
theorem c7_cancel_fulfilled_order_not_rejected :
    cancel_order c7_s 1 =
      (.success 1,
       { c7_s with orders := [⟨1, 1, "cancelled", "NGN", 0, "chatbot"⟩,
                              ⟨2, 1, "fulfilled", "NGN", 100000, "chatbot"⟩] }) ∧
    cancel_order c7_s 2 = (.attributeError, c7_s) := by
  constructor
  · decide
  · decide

/-- C8: the claim states that cancelling a freshly created order releases
its reservation (status `cancelled`, `reserved` back to 0).  Creating the
order succeeds and reserves 4 units, but the cancel path then crashes with
`AttributeError` (`item.quantity`; the column is `qty`) before its commit:
the order stays `created` and the 4 units stay reserved. -/
theorem c8_create_then_cancel_crashes_and_releases_nothing :
    create_order c8_s0 ⟨1, [⟨1, 4, none⟩], "chatbot"⟩ =
      .ok 1 ⟨1, "created", 400000, "NGN"⟩ c8_s1 ∧
    cancel_order c8_s1 1 = (.attributeError, c8_s1) ∧
    findInv? c8_s1.inventory 1 1 = some ⟨1, 1, 10, 4, 0⟩ ∧
    findOrder? c8_s1.orders 1 = some ⟨1, 1, "created", "NGN", 400000, "chatbot"⟩ := by
  refine ⟨?_, ?_, ?_, ?_⟩ <;> decide

/-- C9 counterexample: the claim states that a creation request with an
empty item list is rejected and nothing is persisted.  On the empty
database the creation instead succeeds and persists an order with zero
lines and total 0 (also lazily creating the "Main" warehouse). -/
theorem c9_counterexample_empty_items_accepted :
    create_order c9_s0 ⟨1, [], "chatbot"⟩ =
      .ok 1 ⟨1, "created", 0, "NGN"⟩
        { products := [], warehouses := [⟨1, "Main"⟩], inventory := [],
          orders := [⟨1, 1, "created", "NGN", 0, "chatbot"⟩], order_items := [],
          next_order_id := 2, next_warehouse_id := 2 } := by
  decide

/-- C2: if the creation fails for any reason, the visible committed state
is exactly the pre-call state (no order header, no lines, no inventory
mutation), and the failure is one of the two creation errors: an unknown
product or insufficient stock, in both cases naming the product. -/
theorem c2_create_failure_is_all_or_nothing :
    ∀ (s : DBState) (data : OrderCreate) (e : OrdersError),
      create_order s data = .error e →
      createVisibleState s (create_order s data) = s ∧
        ∃ pid, e = .productNotFound pid ∨ e = .insufficientStock pid := by
  intro s data e h
  refine ⟨by rw [h]; rfl, ?_⟩
  cases hw : firstWarehouse s.warehouses with
  | some w =>
    simp only [create_order, hw] at h
    exact reserveLines_error _ _ _ _ _ _ _ (create_order_body_error h)
  | none =>
    simp only [create_order, hw] at h
    exact reserveLines_error _ _ _ _ _ _ _ (create_order_body_error h)

/-- C2 witness: creating an order for a product absent from the catalog
fails with `ProductNotFound` and leaves the state unchanged. -/
theorem c2_witness :
    createVisibleState c2w_s (create_order c2w_s ⟨1, [⟨1, 1, none⟩], "chatbot"⟩) = c2w_s ∧
      ∃ pid, OrdersError.productNotFound 1 = .productNotFound pid ∨
        OrdersError.productNotFound 1 = .insufficientStock pid :=
  c2_create_failure_is_all_or_nothing c2w_s ⟨1, [⟨1, 1, none⟩], "chatbot"⟩
    (.productNotFound 1) (by decide)

theorem freshOrderId_orders {s : DBState} (h : freshOrderId s = true) :
    ∀ o ∈ s.orders, (o.id == s.next_order_id) = false := by
  intro o ho
  have h1 := List.all_eq_true.mp ((Bool.and_eq_true _ _).mp h).1 o ho
  simpa using h1

theorem freshOrderId_items {s : DBState} (h : freshOrderId s = true) :
    ∀ it ∈ s.order_items, (it.order_id == s.next_order_id) = false := by
  intro it hit
  have h1 := List.all_eq_true.mp ((Bool.and_eq_true _ _).mp h).2 it hit
  simpa using h1

theorem findOrder?_append_fresh {s : DBState} (hf : freshOrderId s = true) (o : Order)
    (h : o.id = s.next_order_id) :
    findOrder? (s.orders ++ [o]) s.next_order_id = some o := by
  rw [findOrder?, List.find?_append]
  have hnone : s.orders.find? (fun o2 => o2.id == s.next_order_id) = none :=
    List.find?_eq_none.mpr (fun o2 ho2 => by simp [freshOrderId_orders hf o2 ho2])
  rw [hnone, Option.none_or]
  simp [List.find?_cons, h]

theorem filter_items_fresh_nil {s : DBState} (hf : freshOrderId s = true) :
    s.order_items.filter (fun it => it.order_id == s.next_order_id) = [] :=
  List.filter_eq_nil_iff.mpr (fun it hit => by simp [freshOrderId_items hf it hit])

/-- Specification of a successful `create_order` run: the new order id is
the flushed `next_order_id`, the persisted order header carries the
accumulated total, the order's lines are exactly the staged ones, and each
staged line snapshots the catalog price. -/
theorem create_order_ok_spec {s : DBState} {data : OrderCreate} {oid : Nat}
    {out : OrderOut} {s2 : DBState}
    (hf : freshOrderId s = true) (h : create_order s data = .ok oid out s2) :
    ∃ newItems,
      oid = s.next_order_id ∧
      itemsOf s2 oid = newItems ∧
      findOrder? s2.orders oid =
        some ⟨oid, data.customer_id, "created", "NGN", sumLineTotals newItems,
          data.channel⟩ ∧
      ∀ it ∈ newItems, it.order_id = oid ∧ it.line_total = it.price * it.qty ∧
        priceOf? s.products it.product_id = some it.price := by
  have main :
      ∀ (s1 : DBState), s1.orders = s.orders → s1.order_items = s.order_items →
        s1.products = s.products →
        ∀ {whId : Nat}, create_order_body s1 data s.next_order_id whId = .ok oid out s2 →
        ∃ newItems,
          oid = s.next_order_id ∧
          itemsOf s2 oid = newItems ∧
          findOrder? s2.orders oid =
            some ⟨oid, data.customer_id, "created", "NGN", sumLineTotals newItems,
              data.channel⟩ ∧
          ∀ it ∈ newItems, it.order_id = oid ∧ it.line_total = it.price * it.qty ∧
            priceOf? s.products it.product_id = some it.price := by
    intro s1 hso hsi hsp whId hb
    obtain ⟨newItems, invs2, hoid, hout, hs2, hprops⟩ := create_order_body_ok hb
    subst hoid
    have hitems : itemsOf s2 s.next_order_id = newItems := by
      rw [hs2]
      show (s1.order_items ++ newItems).filter
        (fun it => it.order_id == s.next_order_id) = newItems
      rw [List.filter_append, hsi, filter_items_fresh_nil hf, List.nil_append]
      exact List.filter_eq_self.mpr
        (fun it hit => by simp [(hprops it hit).1])
    have hfind : findOrder? s2.orders s.next_order_id =
        some ⟨s.next_order_id, data.customer_id, "created", "NGN",
          sumLineTotals newItems, data.channel⟩ := by
      rw [hs2]
      show findOrder? (s1.orders ++
        [⟨s.next_order_id, data.customer_id, "created", "NGN",
          sumLineTotals newItems, data.channel⟩]) s.next_order_id = _
      rw [hso]
      exact findOrder?_append_fresh hf _ rfl
    refine ⟨newItems, rfl, hitems, hfind, ?_⟩
    intro it hit
    obtain ⟨h1, h2, h3⟩ := hprops it hit
    exact ⟨h1, h2, hsp ▸ h3⟩
  cases hw : firstWarehouse s.warehouses with
  | some w =>
    simp only [create_order, hw] at h
    exact main s rfl rfl rfl h
  | none =>
    simp only [create_order, hw] at h
    exact main
      { s with warehouses := s.warehouses ++ [⟨s.next_warehouse_id, "Main"⟩],
               next_warehouse_id := s.next_warehouse_id + 1 }
      rfl rfl rfl h

theorem fulfill_order_preserves {s : DBState} {oid : Nat} {o : Order} {s2 : DBState}
    (h : fulfill_order s oid = .ok o s2) :
    s2.order_items = s.order_items ∧
      s2.orders.map (fun o2 => (o2.id, o2.total)) =
        s.orders.map (fun o2 => (o2.id, o2.total)) := by
  unfold fulfill_order at h
  cases ho : findOrder? s.orders oid with
  | none => simp only [ho] at h; cases h
  | some o1 =>
    simp only [ho] at h
    cases hw : firstWarehouse s.warehouses with
    | none => simp only [hw] at h; cases h
    | some wh =>
      simp only [hw] at h
      cases hc : consumeLines wh.id (itemsOf s oid) s.inventory with
      | error e => simp only [hc] at h; cases h
      | ok invs2 =>
        simp only [hc] at h
        injection h with h1 h2
        subst h2
        exact ⟨rfl, setStatus_map_id_total _⟩

theorem cancel_order_preserves {s : DBState} {oid : Nat} {r : CancelResult} {s2 : DBState}
    (h : cancel_order s oid = (r, s2)) :
    s2.order_items = s.order_items ∧
      s2.orders.map (fun o2 => (o2.id, o2.total)) =
        s.orders.map (fun o2 => (o2.id, o2.total)) := by
  unfold cancel_order at h
  cases ho : findOrder? s.orders oid with
  | none =>
    simp only [ho] at h
    injection h with h1 h2; subst h2; exact ⟨rfl, rfl⟩
  | some o1 =>
    simp only [ho] at h
    split at h
    · injection h with h1 h2; subst h2; exact ⟨rfl, rfl⟩
    · split at h
      · injection h with h1 h2; subst h2; exact ⟨rfl, rfl⟩
      · injection h with h1 h2; subst h2
        exact ⟨rfl, setStatus_map_id_total _⟩

theorem update_order_preserves {s : DBState} {oid : Nat} {st : String}
    {r : UpdateResult} {s2 : DBState}
    (h : update_order s oid st = (r, s2)) :
    s2.order_items = s.order_items ∧
      s2.orders.map (fun o2 => (o2.id, o2.total)) =
        s.orders.map (fun o2 => (o2.id, o2.total)) := by
  unfold update_order at h
  split at h
  · cases ho : findOrder? s.orders oid with
    | none =>
      simp only [ho] at h
      injection h with h1 h2; subst h2; exact ⟨rfl, rfl⟩
    | some o1 =>
      simp only [ho] at h
      injection h with h1 h2; subst h2
      exact ⟨rfl, setStatus_map_id_total _⟩
  · injection h with h1 h2; subst h2; exact ⟨rfl, rfl⟩

/-- C4: after a successful creation the persisted order's `total` equals
the sum of its lines' `line_total` values, each line's `line_total` equals
its snapshot price times its quantity (all in exact two-decimal
fixed-point arithmetic, modelled by kobo-integers), and the equality is
never disturbed later: `fulfill_order`, `_cancel_order` and the PATCH
update never touch order lines or totals. -/
theorem c4_total_equals_sum_of_line_totals :
    ∀ (s : DBState) (data : OrderCreate) (oid : Nat) (out : OrderOut) (s2 : DBState),
      freshOrderId s = true → create_order s data = .ok oid out s2 →
      ((∃ o, findOrder? s2.orders oid = some o ∧
          o.total = sumLineTotals (itemsOf s2 oid)) ∧
        ∀ it ∈ itemsOf s2 oid, it.line_total = it.price * it.qty) ∧
      (∀ (s3 : DBState) (oid2 : Nat) (o4 : Order) (s4 : DBState),
        fulfill_order s3 oid2 = .ok o4 s4 →
        s4.order_items = s3.order_items ∧
          s4.orders.map (fun o2 => (o2.id, o2.total)) =
            s3.orders.map (fun o2 => (o2.id, o2.total))) ∧
      (∀ (s3 : DBState) (oid2 : Nat) (r : CancelResult) (s4 : DBState),
        cancel_order s3 oid2 = (r, s4) →
        s4.order_items = s3.order_items ∧
          s4.orders.map (fun o2 => (o2.id, o2.total)) =
            s3.orders.map (fun o2 => (o2.id, o2.total))) ∧
      (∀ (s3 : DBState) (oid2 : Nat) (st : String) (r : UpdateResult) (s4 : DBState),
        update_order s3 oid2 st = (r, s4) →
        s4.order_items = s3.order_items ∧
          s4.orders.map (fun o2 => (o2.id, o2.total)) =
            s3.orders.map (fun o2 => (o2.id, o2.total))) := by
  intro s data oid out s2 hf h
  obtain ⟨newItems, hoid, hitems, hfind, hprops⟩ := create_order_ok_spec hf h
  refine ⟨⟨⟨_, hfind, ?_⟩, ?_⟩, ?_, ?_, ?_⟩
  · rw [hitems]
  · intro it hit
    rw [hitems] at hit
    exact (hprops it hit).2.1
  · intro s3 oid2 o4 s4 h4; exact fulfill_order_preserves h4
  · intro s3 oid2 r s4 h4; exact cancel_order_preserves h4
  · intro s3 oid2 st r s4 h4; exact update_order_preserves h4

/-- C4 witness: concrete creation on `c4w_s` (one line, 3 × ₦1000.00,
total ₦3000.00) instantiating the theorem. -/
theorem c4_witness :
    ((∃ o, findOrder? c4w_s2.orders 2 = some o ∧
        o.total = sumLineTotals (itemsOf c4w_s2 2)) ∧
      ∀ it ∈ itemsOf c4w_s2 2, it.line_total = it.price * it.qty) ∧
    (∀ (s3 : DBState) (oid2 : Nat) (o4 : Order) (s4 : DBState),
      fulfill_order s3 oid2 = .ok o4 s4 →
      s4.order_items = s3.order_items ∧
        s4.orders.map (fun o2 => (o2.id, o2.total)) =
          s3.orders.map (fun o2 => (o2.id, o2.total))) ∧
    (∀ (s3 : DBState) (oid2 : Nat) (r : CancelResult) (s4 : DBState),
      cancel_order s3 oid2 = (r, s4) →
      s4.order_items = s3.order_items ∧
        s4.orders.map (fun o2 => (o2.id, o2.total)) =
          s3.orders.map (fun o2 => (o2.id, o2.total))) ∧
    (∀ (s3 : DBState) (oid2 : Nat) (st : String) (r : UpdateResult) (s4 : DBState),
      update_order s3 oid2 st = (r, s4) →
      s4.order_items = s3.order_items ∧
        s4.orders.map (fun o2 => (o2.id, o2.total)) =
          s3.orders.map (fun o2 => (o2.id, o2.total))) :=
  c4_total_equals_sum_of_line_totals c4w_s ⟨2, [⟨1, 3, none⟩], "chatbot"⟩ 2
    ⟨2, "created", 300000, "NGN"⟩ c4w_s2 (by decide) (by decide)

/-- C10: the persisted unit price of every line of a successfully created
order is the catalog price `price_ngn` of its product, and the creation
result is entirely independent of the caller-supplied per-item `price`
field of the request. -/
theorem c10_caller_price_ignored_snapshot_is_catalog_price :
    (∀ (s : DBState) (data : OrderCreate),
      create_order s data =
        create_order s { data with items := data.items.map stripPrice }) ∧
    (∀ (s : DBState) (data : OrderCreate) (oid : Nat) (out : OrderOut) (s2 : DBState),
      freshOrderId s = true → create_order s data = .ok oid out s2 →
      ∀ it ∈ itemsOf s2 oid,
        priceOf? s.products it.product_id = some it.price ∧
        it.line_total = it.price * it.qty) := by
  constructor
  · intro s data
    cases hw : firstWarehouse s.warehouses with
    | some w =>
      simp only [create_order, hw, create_order_body]
      rw [reserveLines_stripPrice]
    | none =>
      simp only [create_order, hw, create_order_body]
      rw [reserveLines_stripPrice]
  · intro s data oid out s2 hf h it hit
    obtain ⟨newItems, hoid, hitems, hfind, hprops⟩ := create_order_ok_spec hf h
    rw [hitems] at hit
    obtain ⟨h1, h2, h3⟩ := hprops it hit
    exact ⟨h3, h2⟩

/-- C10 witness: a request carrying a caller-supplied price of 999 yields
the same result as the stripped request, and the persisted line snapshots
the catalog price ₦1000.00. -/
theorem c10_witness :
    create_order c5w_s ⟨1, [⟨1, 2, some 999⟩], "chatbot"⟩ =
      create_order c5w_s
        { OrderCreate.mk 1 [⟨1, 2, some 999⟩] "chatbot" with
          items := [OrderItemIn.mk 1 2 (some 999)].map stripPrice } ∧
    ∀ it ∈ itemsOf c10w_s2 1,
      priceOf? c5w_s.products it.product_id = some it.price ∧
      it.line_total = it.price * it.qty :=
  ⟨c10_caller_price_ignored_snapshot_is_catalog_price.1 c5w_s
    ⟨1, [⟨1, 2, some 999⟩], "chatbot"⟩,
   c10_caller_price_ignored_snapshot_is_catalog_price.2 c5w_s
    ⟨1, [⟨1, 2, some 999⟩], "chatbot"⟩ 1 ⟨1, "created", 200000, "NGN"⟩ c10w_s2
    (by decide) (by decide)⟩

/-- C9 amended: a creation request with an empty item list is not
rejected: it succeeds, persisting an order with status `created`, zero
lines and total 0. -/
theorem c9_amended_empty_items_create_succeeds :
    ∀ (s : DBState) (cust : Nat) (ch : String),
      freshOrderId s = true →
      ∃ s2, create_order s ⟨cust, [], ch⟩ =
          .ok s.next_order_id ⟨s.next_order_id, "created", 0, "NGN"⟩ s2 ∧
        findOrder? s2.orders s.next_order_id =
          some ⟨s.next_order_id, cust, "created", "NGN", 0, ch⟩ ∧
        itemsOf s2 s.next_order_id = [] := by
  intro s cust ch hf
  have hfind : findOrder?
      (s.orders ++ [⟨s.next_order_id, cust, "created", "NGN", 0, ch⟩])
      s.next_order_id =
      some ⟨s.next_order_id, cust, "created", "NGN", 0, ch⟩ :=
    findOrder?_append_fresh hf _ rfl
  have hitems : (s.order_items ++ ([] : List OrderItem)).filter
      (fun it => it.order_id == s.next_order_id) = [] := by
    rw [List.append_nil, filter_items_fresh_nil hf]
  cases hw : firstWarehouse s.warehouses with
  | some w =>
    refine ⟨{ s with
        orders := s.orders ++ [⟨s.next_order_id, cust, "created", "NGN", 0, ch⟩],
        order_items := s.order_items ++ [], inventory := s.inventory,
        next_order_id := s.next_order_id + 1 }, ?_, hfind, hitems⟩
    simp only [create_order, hw]
    rfl
  | none =>
    refine ⟨{ s with
        warehouses := s.warehouses ++ [⟨s.next_warehouse_id, "Main"⟩],
        next_warehouse_id := s.next_warehouse_id + 1,
        orders := s.orders ++ [⟨s.next_order_id, cust, "created", "NGN", 0, ch⟩],
        order_items := s.order_items ++ [], inventory := s.inventory,
        next_order_id := s.next_order_id + 1 }, ?_, hfind, hitems⟩
    simp only [create_order, hw]
    rfl

/-- C9 witness: the amended claim evaluated at `c4w_s` for customer 3. -/
theorem c9_witness :
    ∃ s2, create_order c4w_s ⟨3, [], "web"⟩ =
        .ok c4w_s.next_order_id ⟨c4w_s.next_order_id, "created", 0, "NGN"⟩ s2 ∧
      findOrder? s2.orders c4w_s.next_order_id =
        some ⟨c4w_s.next_order_id, 3, "created", "NGN", 0, "web"⟩ ∧
      itemsOf s2 c4w_s.next_order_id = [] :=
  c9_amended_empty_items_create_succeeds c4w_s 3 "web" (by decide)

/-- C5: with the catalog price resolved, the default warehouse selected
and an inventory row present, a single-line request for exactly
`available = on_hand − reserved` units succeeds and reserves them, while
any request strictly above `available` fails with `InsufficientStock`
naming the product. -/
theorem c5_exact_available_boundary :
    ∀ (s : DBState) (pid : Nat) (pr0 : Int) (wh : Warehouse) (inv : Inventory)
      (cust : Nat) (ch : String) (pr : Option Int),
      priceOf? s.products pid = some pr0 →
      firstWarehouse s.warehouses = some wh →
      findInv? s.inventory pid wh.id = some inv →
      (∀ q : Int, 1 ≤ q → q = inv.on_hand - inv.reserved →
        ∃ out s2, create_order s ⟨cust, [⟨pid, q, pr⟩], ch⟩ =
            .ok s.next_order_id out s2 ∧
          findInv? s2.inventory pid wh.id =
            some { inv with reserved := inv.reserved + q }) ∧
      (∀ q : Int, inv.on_hand - inv.reserved < q →
        create_order s ⟨cust, [⟨pid, q, pr⟩], ch⟩ =
          .error (.insufficientStock pid)) := by
  intro s pid pr0 wh inv cust ch pr hp hw hi
  constructor
  · intro q hq1 hq
    have hcreate : create_order s ⟨cust, [⟨pid, q, pr⟩], ch⟩ =
        .ok s.next_order_id ⟨s.next_order_id, "created", 0 + pr0 * q, "NGN"⟩
          { s with
            orders := s.orders ++
              [⟨s.next_order_id, cust, "created", "NGN", 0 + pr0 * q, ch⟩],
            order_items := s.order_items ++
              [⟨s.next_order_id, pid, q, pr0, pr0 * q⟩],
            inventory := updateInv s.inventory pid wh.id
              (fun i => { i with reserved := i.reserved + q }),
            next_order_id := s.next_order_id + 1 } := by
      simp only [create_order, hw, create_order_body]
      rw [reserveLines]
      simp only [hp, hi]
      rw [if_neg (by rw [← hq]; exact lt_irrefl q)]
      rfl
    exact ⟨_, _, hcreate,
      findInv?_updateInv_self (fun i => { i with reserved := i.reserved + q })
        (fun i => rfl) (fun i => rfl) hi⟩
  · intro q hq
    simp only [create_order, hw, create_order_body]
    rw [reserveLines]
    simp only [hp, hi]
    rw [if_pos hq]

/-- C5 witness: on `c5w_s` (`available = 6`), requesting 6 units succeeds
and reserves them; requesting more than 6 fails with `InsufficientStock`
for product 1. -/
theorem c5_witness :
    (∀ q : Int, 1 ≤ q →
      q = (Inventory.mk 1 1 10 4 0).on_hand - (Inventory.mk 1 1 10 4 0).reserved →
      ∃ out s2, create_order c5w_s ⟨1, [⟨1, q, none⟩], "web"⟩ =
          .ok c5w_s.next_order_id out s2 ∧
        findInv? s2.inventory 1 (Warehouse.mk 1 "Main").id =
          some { Inventory.mk 1 1 10 4 0 with
            reserved := (Inventory.mk 1 1 10 4 0).reserved + q }) ∧
    (∀ q : Int,
      (Inventory.mk 1 1 10 4 0).on_hand - (Inventory.mk 1 1 10 4 0).reserved < q →
      create_order c5w_s ⟨1, [⟨1, q, none⟩], "web"⟩ =
        .error (.insufficientStock 1)) :=
  c5_exact_available_boundary c5w_s 1 100000 ⟨1, "Main"⟩ ⟨1, 1, 10, 4, 0⟩ 1 "web" none
    (by decide) (by decide) (by decide)

theorem consumeLines_preserves (whId : Nat) :
    ∀ (its : List OrderItem) (invs : List Inventory) {invs2 : List Inventory},
      consumeLines whId its invs = .ok invs2 →
      ∀ pid wid, pid ∉ its.map (fun it => it.product_id) →
        findInv? invs2 pid wid = findInv? invs pid wid := by
  intro its
  induction its with
  | nil =>
    intro invs invs2 h pid wid _
    simp only [consumeLines] at h
    injection h with h; subst h; rfl
  | cons it rest ih =>
    intro invs invs2 h pid wid hnot
    rw [consumeLines] at h
    cases hi : findInv? invs it.product_id whId with
    | none => simp only [hi] at h; cases h
    | some inv =>
      simp only [hi] at h
      split at h
      · cases h
      · split at h
        · cases h
        · have hpid : pid ≠ it.product_id := by
            intro hc; exact hnot (by simp [hc])
          have hrest : pid ∉ rest.map (fun x => x.product_id) := by
            intro hc; exact hnot (by simp [List.map_cons, List.mem_cons, hc])
          rw [ih _ h pid wid hrest]
          exact findInv?_updateInv_ne
            (fun i => { i with reserved := i.reserved - it.qty,
                               on_hand := i.on_hand - it.qty })
            (fun i => rfl) hpid invs

theorem consumeLines_ok (whId : Nat) :
    ∀ (its : List OrderItem) (invs : List Inventory),
      (its.map (fun it => it.product_id)).Nodup →
      (∀ it ∈ its, ∃ inv, findInv? invs it.product_id whId = some inv ∧
        it.qty ≤ inv.reserved ∧ it.qty ≤ inv.on_hand) →
      ∃ invs2, consumeLines whId its invs = .ok invs2 ∧
        ∀ it ∈ its, ∀ inv, findInv? invs it.product_id whId = some inv →
          findInv? invs2 it.product_id whId =
            some { inv with reserved := inv.reserved - it.qty,
                            on_hand := inv.on_hand - it.qty } := by
  intro its
  induction its with
  | nil =>
    intro invs _ _
    exact ⟨invs, rfl, by intro it hit; cases hit⟩
  | cons it rest ih =>
    intro invs hnd hall
    obtain ⟨inv, hi, hr, hh⟩ := hall it (List.mem_cons_self _ _)
    rw [List.map_cons, List.nodup_cons] at hnd
    obtain ⟨hnd1, hndr⟩ := hnd
    have htrans : ∀ x ∈ rest,
        findInv? (updateInv invs it.product_id whId
          (fun i => { i with reserved := i.reserved - it.qty,
                             on_hand := i.on_hand - it.qty })) x.product_id whId =
          findInv? invs x.product_id whId := by
      intro x hx
      refine findInv?_updateInv_ne
        (fun i => { i with reserved := i.reserved - it.qty,
                           on_hand := i.on_hand - it.qty })
        (fun i => rfl) ?_ invs
      intro hc
      exact hnd1 (hc ▸ List.mem_map.mpr ⟨x, hx, rfl⟩)
    have hallr : ∀ x ∈ rest, ∃ inv2,
        findInv? (updateInv invs it.product_id whId
          (fun i => { i with reserved := i.reserved - it.qty,
                             on_hand := i.on_hand - it.qty })) x.product_id whId =
          some inv2 ∧ x.qty ≤ inv2.reserved ∧ x.qty ≤ inv2.on_hand := by
      intro x hx
      obtain ⟨inv2, hfi, h1, h2⟩ := hall x (List.mem_cons_of_mem _ hx)
      exact ⟨inv2, (htrans x hx).trans hfi, h1, h2⟩
    obtain ⟨invs2, hrun, hpost⟩ := ih _ hndr hallr
    refine ⟨invs2, ?_, ?_⟩
    · rw [consumeLines]
      simp only [hi]
      rw [if_neg (not_lt.mpr hr), if_neg (not_lt.mpr hh)]
      exact hrun
    · intro x hx inv0 hfi0
      rcases List.mem_cons.mp hx with rfl | hx
      · have heq : inv = inv0 := by
          have := hi.symm.trans hfi0
          injection this
        subst heq
        have hpres := consumeLines_preserves whId rest _ hrun x.product_id whId hnd1
        rw [hpres]
        exact findInv?_updateInv_self
          (fun i => { i with reserved := i.reserved - x.qty,
                             on_hand := i.on_hand - x.qty })
          (fun i => rfl) (fun i => rfl) hfi0
      · have hfi1 := (htrans x hx).trans hfi0
        exact hpost x hx inv0 hfi1

theorem consumeLines_error (whId : Nat) :
    ∀ (its : List OrderItem) (invs : List Inventory),
      (its.map (fun it => it.product_id)).Nodup →
      (∀ it ∈ its, (findInv? invs it.product_id whId).isSome) →
      (∃ it ∈ its, ∃ inv, findInv? invs it.product_id whId = some inv ∧
        (inv.reserved < it.qty ∨ inv.on_hand < it.qty)) →
      ∃ e, consumeLines whId its invs = .error e ∧
        ∃ pid, pid ∈ its.map (fun x => x.product_id) ∧
          (e = .reservedBelowQty pid ∨ e = .onHandBelowQty pid) := by
  intro its
  induction its with
  | nil =>
    intro invs _ _ hbad
    obtain ⟨it, hit, _⟩ := hbad
    cases hit
  | cons it rest ih =>
    intro invs hnd hsome hbad
    obtain ⟨inv, hi⟩ := Option.isSome_iff_exists.mp (hsome it (List.mem_cons_self _ _))
    by_cases h1 : inv.reserved < it.qty
    · refine ⟨.reservedBelowQty it.product_id, ?_, it.product_id, by simp, Or.inl rfl⟩
      rw [consumeLines]; simp only [hi]; rw [if_pos h1]
    · by_cases h2 : inv.on_hand < it.qty
      · refine ⟨.onHandBelowQty it.product_id, ?_, it.product_id, by simp, Or.inr rfl⟩
        rw [consumeLines]; simp only [hi]; rw [if_neg h1, if_pos h2]
      · rw [List.map_cons, List.nodup_cons] at hnd
        obtain ⟨hnd1, hndr⟩ := hnd
        have htrans : ∀ x ∈ rest,
            findInv? (updateInv invs it.product_id whId
              (fun i => { i with reserved := i.reserved - it.qty,
                                 on_hand := i.on_hand - it.qty })) x.product_id whId =
              findInv? invs x.product_id whId := by
          intro x hx
          refine findInv?_updateInv_ne
            (fun i => { i with reserved := i.reserved - it.qty,
                               on_hand := i.on_hand - it.qty })
            (fun i => rfl) ?_ invs
          intro hc
          exact hnd1 (hc ▸ List.mem_map.mpr ⟨x, hx, rfl⟩)
        have hsome1 : ∀ x ∈ rest,
            (findInv? (updateInv invs it.product_id whId
              (fun i => { i with reserved := i.reserved - it.qty,
                                 on_hand := i.on_hand - it.qty })) x.product_id whId).isSome := by
          intro x hx
          rw [htrans x hx]
          exact hsome x (List.mem_cons_of_mem _ hx)
        have hbad1 : ∃ x ∈ rest, ∃ inv2,
            findInv? (updateInv invs it.product_id whId
              (fun i => { i with reserved := i.reserved - it.qty,
                                 on_hand := i.on_hand - it.qty })) x.product_id whId =
              some inv2 ∧ (inv2.reserved < x.qty ∨ inv2.on_hand < x.qty) := by
          obtain ⟨x, hx, inv2, hfx, hor⟩ := hbad
          rcases List.mem_cons.mp hx with rfl | hx
          · have heq : inv = inv2 := by
              have := hi.symm.trans hfx
              injection this
            subst heq
            rcases hor with h | h
            · exact absurd h h1
            · exact absurd h h2
          · exact ⟨x, hx, inv2, (htrans x hx).trans hfx, hor⟩
        obtain ⟨e, hrun, pid, hpid, hor⟩ := ih _ hndr hsome1 hbad1
        refine ⟨e, ?_, pid, ?_, hor⟩
        · rw [consumeLines]; simp only [hi]; rw [if_neg h1, if_neg h2]; exact hrun
        · rw [List.map_cons]
          exact List.mem_cons_of_mem _ hpid

/-- C6: for an order in an allocatable status (`created` or `paid`) whose
lines reference distinct products, all of which have inventory rows: if
every line's row covers its quantity on both `reserved` and `on_hand`,
fulfillment succeeds, decrements both counters by each line's quantity and
sets the status to `fulfilled`; if some line's row falls short on either
counter, fulfillment fails with the descriptive per-product error and the
committed state is completely unchanged (no partial consumption). -/
theorem c6_fulfill_consumes_exactly_or_fails_cleanly :
    ∀ (s : DBState) (oid : Nat) (o : Order) (wh : Warehouse),
      findOrder? s.orders oid = some o →
      (o.status = "created" ∨ o.status = "paid") →
      firstWarehouse s.warehouses = some wh →
      ((itemsOf s oid).map (fun it => it.product_id)).Nodup →
      (∀ it ∈ itemsOf s oid, (findInv? s.inventory it.product_id wh.id).isSome) →
      ((∀ it ∈ itemsOf s oid, ∀ inv,
          findInv? s.inventory it.product_id wh.id = some inv →
          it.qty ≤ inv.reserved ∧ it.qty ≤ inv.on_hand) →
        ∃ s2, fulfill_order s oid = .ok { o with status := "fulfilled" } s2 ∧
          findOrder? s2.orders oid = some { o with status := "fulfilled" } ∧
          ∀ it ∈ itemsOf s oid, ∀ inv,
            findInv? s.inventory it.product_id wh.id = some inv →
            findInv? s2.inventory it.product_id wh.id =
              some { inv with reserved := inv.reserved - it.qty,
                              on_hand := inv.on_hand - it.qty }) ∧
      ((∃ it ∈ itemsOf s oid, ∃ inv,
          findInv? s.inventory it.product_id wh.id = some inv ∧
          (inv.reserved < it.qty ∨ inv.on_hand < it.qty)) →
        ∃ e, fulfill_order s oid = .error e ∧
          fulfillVisibleState s (fulfill_order s oid) = s ∧
          ∃ pid, pid ∈ (itemsOf s oid).map (fun it => it.product_id) ∧
            (e = .reservedBelowQty pid ∨ e = .onHandBelowQty pid)) := by
  intro s oid o wh ho hstat hw hnd hsome
  constructor
  · intro hgood
    have hall : ∀ it ∈ itemsOf s oid, ∃ inv,
        findInv? s.inventory it.product_id wh.id = some inv ∧
        it.qty ≤ inv.reserved ∧ it.qty ≤ inv.on_hand := by
      intro it hit
      obtain ⟨inv, hfi⟩ := Option.isSome_iff_exists.mp (hsome it hit)
      exact ⟨inv, hfi, hgood it hit inv hfi⟩
    obtain ⟨invs2, hrun, hpost⟩ :=
      consumeLines_ok wh.id (itemsOf s oid) s.inventory hnd hall
    have hff : fulfill_order s oid =
        .ok { o with status := "fulfilled" }
          { s with orders := setStatus s.orders oid "fulfilled",
                   inventory := invs2 } := by
      unfold fulfill_order
      simp only [ho, hw, hrun]
    refine ⟨_, hff, findOrder?_setStatus_self ho, ?_⟩
    intro it hit inv hfi
    exact hpost it hit inv hfi
  · intro hbad
    obtain ⟨e, hrun, pid, hpid, hor⟩ :=
      consumeLines_error wh.id (itemsOf s oid) s.inventory hnd hsome hbad
    have hff : fulfill_order s oid = .error e := by
      unfold fulfill_order
      simp only [ho, hw, hrun]
    exact ⟨e, hff, by rw [hff]; rfl, pid, hpid, hor⟩

/-- C6 witness: on `c6w_s` (order 1, lines of 2×product 1 and 3×product 2,
inventory rows covering both) the theorem's hypotheses hold concretely. -/
theorem c6_witness :
    ((∀ it ∈ itemsOf c6w_s 1, ∀ inv,
        findInv? c6w_s.inventory it.product_id (Warehouse.mk 1 "Main").id = some inv →
        it.qty ≤ inv.reserved ∧ it.qty ≤ inv.on_hand) →
      ∃ s2, fulfill_order c6w_s 1 =
          .ok { Order.mk 1 1 "created" "NGN" 350000 "chatbot" with status := "fulfilled" } s2 ∧
        findOrder? s2.orders 1 =
          some { Order.mk 1 1 "created" "NGN" 350000 "chatbot" with status := "fulfilled" } ∧
        ∀ it ∈ itemsOf c6w_s 1, ∀ inv,
          findInv? c6w_s.inventory it.product_id (Warehouse.mk 1 "Main").id = some inv →
          findInv? s2.inventory it.product_id (Warehouse.mk 1 "Main").id =
            some { inv with reserved := inv.reserved - it.qty,
                            on_hand := inv.on_hand - it.qty }) ∧
    ((∃ it ∈ itemsOf c6w_s 1, ∃ inv,
        findInv? c6w_s.inventory it.product_id (Warehouse.mk 1 "Main").id = some inv ∧
        (inv.reserved < it.qty ∨ inv.on_hand < it.qty)) →
      ∃ e, fulfill_order c6w_s 1 = .error e ∧
        fulfillVisibleState c6w_s (fulfill_order c6w_s 1) = c6w_s ∧
        ∃ pid, pid ∈ (itemsOf c6w_s 1).map (fun it => it.product_id) ∧
          (e = .reservedBelowQty pid ∨ e = .onHandBelowQty pid)) :=
  c6_fulfill_consumes_exactly_or_fails_cleanly c6w_s 1
    ⟨1, 1, "created", "NGN", 350000, "chatbot"⟩ ⟨1, "Main"⟩
    (by decide) (Or.inl rfl) (by decide) (by decide) (by decide)

end OrderEngine
